import Mathlib

/-!
Verification of the kiyoshi cleanup scheduler against its specification.

The development shallowly embeds the Rust sources:
  * `src/scheduler/job.rs` — the `Job` type, its logical firing clock
    (`JobScheduleMetadata`), `get_next_schedule`, `until` and `run`;
  * `src/cleaner/sql_validate.rs` — the SQL safety validator over the
    sqlparser AST fragment the validator inspects;
  * `src/cleaner/template.rs` — the template renderer (the minijinja
    substitution engine itself is an external crate and is modelled from
    the specification, see `renderChunks`);
  * `src/cleaner/task.rs` — the task executor with its batch/retry loop.

Timestamps are modelled as natural numbers; a parsed cron schedule is
modelled as the set (list) of its occurrence times, and the cron crate's
after-iterator as the choice of the earliest occurrence strictly after the
reference time. The database and notification collaborators are modelled
by the stub-result lists and event traces the specification itself uses to
state the executor properties.
-/

namespace Kiyoshi

/-! ## Scheduler and Job (src/scheduler/job.rs) -/

/-- A parsed cron `Schedule`, modelled extensionally as the list of its
occurrence timestamps. The cron crate's `schedule.after(&t)` iterator
yields exactly the occurrences strictly after `t`, in increasing order. -/
abbrev CronSchedule := List Nat

/-- `schedule.after(&t).next()`: the earliest occurrence strictly after `t`,
or `none` when the (finite) schedule is exhausted. -/
def afterNext (s : CronSchedule) (t : Nat) : Option Nat :=
  match s with
  | [] => none
  | u :: us =>
    match afterNext us t with
    | none => if t < u then some u else none
    | some v => if t < u then some (min u v) else some v

/-- `Job::get_next_schedule`: `schedule.after(&now).next().unwrap_or(now)`. -/
def get_next_schedule (schedule : CronSchedule) (now : Nat) : Nat :=
  (afterNext schedule now).getD now

/-- `JobScheduleMetadata`: the logical firing clock of one `Job`. -/
structure JobScheduleMetadata where
  data_interval_end : Nat
deriving DecidableEq

/-- `JobScheduleMetadata::update`. -/
def JobScheduleMetadata.update (_m : JobScheduleMetadata) (data_interval_end : Nat) :
    JobScheduleMetadata :=
  ⟨data_interval_end⟩

/-- `Job`: name, parsed schedule, optional last-run wall-clock timestamp and
the logical clock. The bound action is left abstract: `run` returns the
metadata it dispatches the action with. -/
structure Job where
  name : String
  schedule : CronSchedule
  last_run : Option Nat
  schedule_metadata : JobScheduleMetadata
deriving DecidableEq

/-- `Job::new` (the parse step is the cron crate's; a parsed schedule is
taken as given): `last_run = None`, logical clock initialised to the first
occurrence strictly after construction time. -/
def Job.new (name : String) (schedule : CronSchedule) (now : Nat) : Job :=
  { name := name
    schedule := schedule
    last_run := none
    schedule_metadata := ⟨get_next_schedule schedule now⟩ }

/-- `Job::until`: duration until the next fire, relative to
`last_run.unwrap_or_else(Utc::now)`; a negative signed duration is clamped
to zero; `None` when the schedule has no further occurrence. -/
def Job.until (j : Job) (now : Nat) : Option Nat :=
  match afterNext j.schedule (j.last_run.getD now) with
  | some upcoming => if now ≤ upcoming then some (upcoming - now) else some 0
  | none => none

/-- `Job::run`: records `last_run = now`, dispatches the action with the
pre-advance metadata (the first component), then advances the logical clock
to the next occurrence computed from the previous `data_interval_end`. -/
def Job.run (j : Job) (now : Nat) : JobScheduleMetadata × Job :=
  let j1 := { j with last_run := some now }
  let dispatched := j1.schedule_metadata
  let next := get_next_schedule j1.schedule j1.schedule_metadata.data_interval_end
  (dispatched, { j1 with schedule_metadata := j1.schedule_metadata.update next })

/-- A sequence of firings at the given wall-clock instants. -/
def Job.runSeq (j : Job) (nows : List Nat) : Job :=
  nows.foldl (fun jb n => (Job.run jb n).2) j

theorem afterNext_eq_none {s : CronSchedule} {t : Nat}
    (h : afterNext s t = none) : ∀ v ∈ s, ¬ t < v := by
  induction s with
  | nil => intro v hv; simp at hv
  | cons b bs ih =>
    intro v hv
    simp only [afterNext] at h
    cases hrec : afterNext bs t with
    | none =>
      rw [hrec] at h
      by_cases htb : t < b
      · simp [htb] at h
      · rcases List.mem_cons.mp hv with hvb | hvbs
        · omega
        · exact ih hrec v hvbs
    | some w => rw [hrec] at h; by_cases htb : t < b <;> simp [htb] at h

theorem afterNext_eq_some {s : CronSchedule} {t u : Nat}
    (h : afterNext s t = some u) :
    u ∈ s ∧ t < u ∧ ∀ v ∈ s, t < v → u ≤ v := by
  induction s generalizing u with
  | nil => simp [afterNext] at h
  | cons a as ih =>
    simp only [afterNext] at h
    cases hrec : afterNext as t with
    | none =>
      rw [hrec] at h
      by_cases hta : t < a
      · simp [hta] at h
        subst h
        refine ⟨List.mem_cons_self _ _, hta, ?_⟩
        intro v hv htv
        rcases List.mem_cons.mp hv with hva | hvas
        · omega
        · exact absurd htv (afterNext_eq_none hrec v hvas)
      · simp [hta] at h
    | some v =>
      rw [hrec] at h
      obtain ⟨hvmem, htv, hleast⟩ := ih hrec
      by_cases hta : t < a
      · simp [hta] at h
        subst h
        rcases Nat.le_total a v with hav | hva
        · rw [min_eq_left hav]
          refine ⟨List.mem_cons_self _ _, hta, ?_⟩
          intro w hw htw
          rcases List.mem_cons.mp hw with hwa | hwas
          · omega
          · exact le_trans hav (hleast w hwas htw)
        · rw [min_eq_right hva]
          refine ⟨List.mem_cons_of_mem _ hvmem, htv, ?_⟩
          intro w hw htw
          rcases List.mem_cons.mp hw with hwa | hwas
          · omega
          · exact hleast w hwas htw
      · simp [hta] at h
        subst h
        refine ⟨List.mem_cons_of_mem _ hvmem, htv, ?_⟩
        intro w hw htw
        rcases List.mem_cons.mp hw with hwa | hwas
        · omega
        · exact hleast w hwas htw

theorem le_get_next_schedule (s : CronSchedule) (t : Nat) :
    t ≤ get_next_schedule s t := by
  unfold get_next_schedule
  cases h : afterNext s t with
  | none => simp
  | some u => simpa using Nat.le_of_lt (afterNext_eq_some h).2.1

/-- C8: for every cron schedule and reference time, `get_next_schedule`
(`nextFireTime`) returns the earliest cron occurrence strictly greater than
the reference time; when no future occurrence exists it returns the
reference time unchanged as a sentinel. -/
theorem get_next_schedule_spec (s : CronSchedule) (now : Nat) :
    (get_next_schedule s now ∈ s ∧ now < get_next_schedule s now ∧
       ∀ v ∈ s, now < v → get_next_schedule s now ≤ v) ∨
    (get_next_schedule s now = now ∧ ∀ v ∈ s, ¬ now < v) := by
  unfold get_next_schedule
  cases h : afterNext s now with
  | none =>
    right
    exact ⟨rfl, afterNext_eq_none h⟩
  | some u =>
    left
    simpa using afterNext_eq_some h

/-- C2: `Job::run` dispatches the action with the pre-advance logical clock
value, stores as the new `data_interval_end` the next cron occurrence
computed from the previous logical timestamp (independently of the
wall-clock `now`), and `data_interval_end` is monotonically non-decreasing
across any sequence of firings. -/
theorem run_advances_logical_clock (j : Job) (now : Nat) :
    (Job.run j now).1 = j.schedule_metadata ∧
    (Job.run j now).2.schedule_metadata.data_interval_end =
      get_next_schedule j.schedule j.schedule_metadata.data_interval_end ∧
    j.schedule_metadata.data_interval_end ≤
      (Job.run j now).2.schedule_metadata.data_interval_end ∧
    ∀ nows : List Nat,
      j.schedule_metadata.data_interval_end ≤
        (Job.runSeq j nows).schedule_metadata.data_interval_end := by
  refine ⟨rfl, rfl, le_get_next_schedule _ _, ?_⟩
  intro nows
  induction nows generalizing j with
  | nil => simp [Job.runSeq]
  | cons n ns ih =>
    have hstep : j.schedule_metadata.data_interval_end ≤
        ((Job.run j n).2).schedule_metadata.data_interval_end :=
      le_get_next_schedule _ _
    calc j.schedule_metadata.data_interval_end
        ≤ ((Job.run j n).2).schedule_metadata.data_interval_end := hstep
      _ ≤ (Job.runSeq (Job.run j n).2 ns).schedule_metadata.data_interval_end := ih _
      _ = (Job.runSeq j (n :: ns)).schedule_metadata.data_interval_end := by
            simp [Job.runSeq]

/-- The concrete schedule used for the C1 counterexample: occurrences at
times 10, 20 and 30. -/
def sC1 : CronSchedule := [10, 20, 30]

/-- A job on `sC1` constructed at time 3 (logical clock initialised to the
occurrence 10) and fired once, late, at wall-clock time 12: afterwards
`last_run = 12` and the logical clock holds 20. -/
def jC1 : Job := (Job.run (Job.new "cleanup_task" sC1 3) 12).2

/-- C1 counterexample: for the once-fired job `jC1` at wall-clock time 13,
`until` returns 7 — the distance to the next occurrence after the stored
`last_run` wall-clock timestamp 12 — and not 17, the distance to the next
occurrence (30) after the stored logical clock value 20, as the claim
states. -/
theorem until_uses_last_run_counterexample :
    jC1.last_run = some 12 ∧
    jC1.schedule_metadata.data_interval_end = 20 ∧
    afterNext jC1.schedule jC1.schedule_metadata.data_interval_end = some 30 ∧
    Job.until jC1 13 = some 7 ∧
    (30 : Nat) - 13 = 17 ∧ Job.until jC1 13 ≠ some 17 := by
  refine ⟨rfl, rfl, rfl, rfl, rfl, ?_⟩
  decide

/-- C1 amended: after at least one run, `Job::until` returns the duration
from wall-clock now to the earliest cron occurrence strictly after the
stored `last_run` wall-clock timestamp (clamped to zero when that occurrence
is already past), not after the stored logical clock value; it returns
`none` when no occurrence after `last_run` exists. -/
theorem until_anchors_to_last_run (j : Job) (now t : Nat)
    (h : j.last_run = some t) :
    (∃ u, u ∈ j.schedule ∧ t < u ∧ (∀ v ∈ j.schedule, t < v → u ≤ v) ∧
       Job.until j now = some (if now ≤ u then u - now else 0)) ∨
    ((∀ v ∈ j.schedule, ¬ t < v) ∧ Job.until j now = none) := by
  unfold Job.until
  rw [h]
  simp only [Option.getD_some]
  cases hn : afterNext j.schedule t with
  | none =>
    right
    exact ⟨afterNext_eq_none hn, rfl⟩
  | some u =>
    left
    obtain ⟨hmem, hlt, hleast⟩ := afterNext_eq_some hn
    refine ⟨u, hmem, hlt, hleast, ?_⟩
    by_cases hnu : now ≤ u <;> simp [hnu]

/-- Witness for the amended C1 statement, at the concrete job `jC1` and
wall-clock time 13. -/
theorem until_anchors_to_last_run_witness :
    (∃ u, u ∈ jC1.schedule ∧ 12 < u ∧ (∀ v ∈ jC1.schedule, 12 < v → u ≤ v) ∧
       Job.until jC1 13 = some (if 13 ≤ u then u - 13 else 0)) ∨
    ((∀ v ∈ jC1.schedule, ¬ 12 < v) ∧ Job.until jC1 13 = none) :=
  until_anchors_to_last_run jC1 13 12 rfl

/-! ## SQL safety validator (src/cleaner/sql_validate.rs)

The sqlparser AST is embedded as a mutual inductive covering exactly the
node kinds the validator inspects; every other node kind is collapsed into
an `other` constructor, on which the validator returns false, as in the
source. Argument and FROM lists are embedded as their own list types so the
mutual recursion stays structural. -/

/-- The binary operators the walk descends through; every other operator is
`other` (the walk stops there). -/
inductive BinaryOperator where
  | lt
  | ltEq
  | and
  | other
deriving DecidableEq

/-- `ast::DateTimeField`, restricted to the units the validator accepts. -/
inductive DateTimeField where
  | day
  | month
  | year
  | other
deriving DecidableEq

/-- `ast::Value`: a numeric literal carries its digit string and the parser
flag the source pattern-matches against `false`. -/
inductive SqlValue where
  | number (digits : String) (flag : Bool)
  | other
deriving DecidableEq

mutual

/-- `ast::Expr`, restricted to the shapes `contains_date_sub` matches. -/
inductive Expr where
  | binaryOp (op : BinaryOperator) (left right : Expr)
  | function (name : String) (args : FunctionArguments)
  | interval (iv : IntervalExpr)
  | inSubquery (e : Expr) (subquery : Query)
  | value (v : SqlValue)
  | other

/-- `ast::Interval`: its value expression and optional leading field. -/
inductive IntervalExpr where
  | mk (value : Expr) (leading_field : Option DateTimeField)

/-- `ast::FunctionArguments`: an argument list, or any other form. -/
inductive FunctionArguments where
  | list (args : FunctionArgList)
  | other

/-- A list of function arguments. -/
inductive FunctionArgList where
  | nil
  | cons (head : FunctionArg) (tail : FunctionArgList)

/-- `ast::FunctionArg`: an unnamed plain-expression argument, or any other
form. -/
inductive FunctionArg where
  | unnamedExpr (e : Expr)
  | other

/-- `ast::Query`: only its body is inspected. -/
inductive Query where
  | mk (body : SetExpr)

/-- `ast::SetExpr`: a plain SELECT with its selection and FROM clause, or
any other body. -/
inductive SetExpr where
  | select (selection : Option Expr) (fromClause : FromList)
  | other

/-- A FROM clause: a list of tables-with-joins. -/
inductive FromList where
  | nil
  | cons (head : TableWithJoins) (tail : FromList)

/-- `ast::TableWithJoins`: only the relation is inspected. -/
inductive TableWithJoins where
  | mk (relation : TableFactor)

/-- `ast::TableFactor`: a derived table (subquery), or any other factor. -/
inductive TableFactor where
  | derived (subquery : Query)
  | other

end

/-- Rust's `str::to_uppercase`, as applied to SQL function names:
character-wise upper-casing. -/
def rustToUppercase (s : String) : String := ⟨s.data.map Char.toUpper⟩

/-- Rust's `str::parse::<u64>`: an optional leading plus sign, then one or
more decimal digits, the value fitting in 64 bits. -/
def parseU64 (s : String) : Option Nat :=
  let cs := match s.data with
    | '+' :: rest => rest
    | cs => cs
  match cs with
  | [] => none
  | _ =>
    if cs.all Char.isDigit then
      let n := cs.foldl (fun acc c => acc * 10 + (c.toNat - 48)) 0
      if n < 2 ^ 64 then some n else none
    else none

/-- `SqlValidator::validate_interval`: a non-negative integer literal with
unit MONTH (×30), YEAR (×365) or DAY (×1) whose day-equivalent is at least
`retention_days`; any other shape fails. The products `months * 30` and
`years * 365` are u64 multiplications, which wrap modulo `2 ^ 64` in a
release build. -/
def validate_interval (retention_days : Nat) : IntervalExpr → Bool
  | .mk (Expr.value (SqlValue.number v false)) (some DateTimeField.month) =>
    match parseU64 v with
    | some months => decide (months * 30 % 2 ^ 64 ≥ retention_days)
    | none => false
  | .mk (Expr.value (SqlValue.number v false)) (some DateTimeField.year) =>
    match parseU64 v with
    | some years => decide (years * 365 % 2 ^ 64 ≥ retention_days)
    | none => false
  | .mk (Expr.value (SqlValue.number v false)) (some DateTimeField.day) =>
    match parseU64 v with
    | some days => decide (days ≥ retention_days)
    | none => false
  | _ => false

mutual

/-- `SqlValidator::contains_date_sub`: the recursive walk of a WHERE
expression, descending through `<`, `<=` and `AND`, through IN-subquery
predicates, and (when an IN-subquery has no selection) through derived
tables in its FROM clause. -/
def contains_date_sub (r : Nat) : Expr → Bool
  | .binaryOp op left right =>
    match op with
    | .lt | .ltEq | .and => contains_date_sub r left || contains_date_sub r right
    | .other => false
  | .function name args =>
    if rustToUppercase name = "DATE_SUB" then
      match args with
      | .list argList => anyArgQualifies r argList
      | .other => false
    else false
  | .inSubquery e subquery =>
    contains_date_sub r e ||
      match subquery with
      | .mk (SetExpr.select selection fromClause) =>
        match selection with
        | some sel => contains_date_sub r sel
        | none => contains_date_sub_in_from r fromClause
      | .mk SetExpr.other => false
  | _ => false

/-- The `args.iter().any(..)` check inside the DATE_SUB case: some argument
is an unnamed interval expression passing `validate_interval`. -/
def anyArgQualifies (r : Nat) : FunctionArgList → Bool
  | .nil => false
  | .cons arg rest =>
    (match arg with
     | .unnamedExpr (Expr.interval iv) => validate_interval r iv
     | _ => false) || anyArgQualifies r rest

/-- `SqlValidator::contains_date_sub_in_from`: some table of the FROM
clause is a derived table whose SELECT either has a selection containing a
qualifying call, or (recursively) such a derived table in its own FROM
clause. -/
def contains_date_sub_in_from (r : Nat) : FromList → Bool
  | .nil => false
  | .cons twj rest =>
    (match twj with
     | .mk (TableFactor.derived (Query.mk (SetExpr.select sel fromClause))) =>
       (match sel with
        | some s => contains_date_sub r s
        | none => false) ||
       (match fromClause with
        | FromList.nil => false
        | FromList.cons _ _ => contains_date_sub_in_from r fromClause)
     | .mk (TableFactor.derived (Query.mk SetExpr.other)) => false
     | .mk TableFactor.other => false) || contains_date_sub_in_from r rest

end

/-- `ast::Statement`, restricted to what `validate_sql_query` matches: a
DELETE with its optional selection, or any other statement kind. -/
inductive Statement where
  | delete (selection : Option Expr)
  | other

/-- `SqlValidator::validate_sql_query` after the parse step: exactly one
statement, which must be a DELETE with a WHERE clause containing a
qualifying DATE_SUB call. -/
def validate_statements (r : Nat) (ast : List Statement) : Except String Unit :=
  match ast with
  | [stmt] =>
    match stmt with
    | .delete selection =>
      match selection with
      | none => Except.error "DELETE statement must have a WHERE clause and FROM clause"
      | some sel =>
        if contains_date_sub r sel then Except.ok ()
        else Except.error "DELETE statement must use DATE_SUB function"
    | .other => Except.error "Only DELETE statements are allowed"
  | _ => Except.error "Only single SQL statement is allowed"

/-- `SqlValidator::validate_sql_query`: the sqlparser parse step is an
external crate, modelled as an oracle from the SQL text to the statement
list it parses to (`none` on parse failure). -/
def validate_sql_query (parse : String → Option (List Statement)) (r : Nat)
    (sql : String) : Except String Unit :=
  match parse sql with
  | none => Except.error "Failed to parse SQL"
  | some ast => validate_statements r ast

/-- The day conversion factor of a qualifying interval unit, per the spec:
DAY×1, MONTH×30, YEAR×365; no other unit qualifies. -/
def unitFactor : DateTimeField → Option Nat
  | .day => some 1
  | .month => some 30
  | .year => some 365
  | .other => none

/-- The day-equivalent value of an interval argument as the claim words it:
the mathematical (unbounded) product, defined exactly for a non-negative
integer literal with unit DAY, MONTH or YEAR. -/
def dayEquivalent : IntervalExpr → Option Nat
  | .mk (Expr.value (SqlValue.number v false)) (some u) =>
    (match unitFactor u, parseU64 v with
     | some f, some n => some (n * f)
     | _, _ => none)
  | _ => none

/-- The day-equivalent value as the release-built code computes it: the
same product, wrapped modulo `2 ^ 64` by the u64 multiplication. -/
def dayEquivalentU64 : IntervalExpr → Option Nat
  | .mk (Expr.value (SqlValue.number v false)) (some u) =>
    (match unitFactor u, parseU64 v with
     | some f, some n => some (n * f % 2 ^ 64)
     | _, _ => none)
  | _ => none

/-- The AST of `DATE_SUB(NOW(), INTERVAL 30 DAY)` as sqlparser produces
it. -/
def dateSub30Day : Expr :=
  .function "DATE_SUB"
    (.list (.cons (.unnamedExpr (.function "NOW" (.list .nil)))
      (.cons (.unnamedExpr (.interval (.mk (.value (.number "30" false))
        (some .day))))
        .nil)))

/-- The AST of
`DELETE FROM t WHERE created_at < DATE_SUB(NOW(), INTERVAL 30 DAY)`:
the identifier `created_at` is a node kind the walk does not descend into,
hence `Expr.other`. -/
def delete30DayStmt : Statement :=
  .delete (some (.binaryOp .lt .other dateSub30Day))

theorem parseU64_30 : parseU64 "30" = some 30 := by decide

theorem parseU64_lt {s : String} {n : Nat} (h : parseU64 s = some n) :
    n < 2 ^ 64 := by
  unfold parseU64 at h
  dsimp only at h
  generalize (match s.data with | '+' :: rest => rest | cs => cs) = cs at h
  cases cs with
  | nil => exact Option.noConfusion h
  | cons c cs2 =>
    by_cases hd : (c :: cs2).all Char.isDigit
    · rw [if_pos hd] at h
      by_cases hlt :
          List.foldl (fun acc c => acc * 10 + (c.toNat - 48)) 0 (c :: cs2) < 2 ^ 64
      · rw [if_pos hlt] at h
        injection h with h2
        omega
      · rw [if_neg hlt] at h
        exact Option.noConfusion h
    · rw [if_neg hd] at h
      exact Option.noConfusion h

/-- The interval argument `INTERVAL 9223372036854775808 MONTH`: a valid u64
literal (`2 ^ 63`) whose u64 product with 30 wraps to 0. -/
def bigMonthInterval : IntervalExpr :=
  .mk (.value (.number "9223372036854775808" false)) (some .month)

/-- C4 counterexample: `INTERVAL 9223372036854775808 MONTH` is a
non-negative integer literal with unit MONTH whose day-equivalent value
`2 ^ 63 × 30` is at least the retention of 30 days, so the claim says it
qualifies — yet the validator rejects it: the release-built u64 product
wraps to `(2 ^ 63 × 30) mod 2 ^ 64 = 0`, which is below the retention. -/
theorem validate_interval_overflow_counterexample :
    dayEquivalent bigMonthInterval = some (9223372036854775808 * 30) ∧
    (30 : Nat) ≤ 9223372036854775808 * 30 ∧
    9223372036854775808 * 30 % 2 ^ 64 = 0 ∧
    validate_interval 30 bigMonthInterval = false := by
  refine ⟨by decide, by norm_num, by decide, by decide⟩

/-- C4 amended: an interval argument qualifies iff it is a non-negative
integer literal (fitting in u64) with unit DAY, MONTH or YEAR whose
day-equivalent value, computed with the wrapping 64-bit multiplication of
the release build, is at least `retention_days`; and the 30-DAY example
DELETE (whose product does not overflow) is accepted exactly when
`retention_days ≤ 30`. -/
theorem validate_interval_day_equivalent :
    (∀ (r : Nat) (iv : IntervalExpr),
       validate_interval r iv = true ↔ ∃ d, dayEquivalentU64 iv = some d ∧ r ≤ d) ∧
    (∀ r : Nat,
       validate_sql_query (fun _ => some [delete30DayStmt]) r
           "DELETE FROM t WHERE created_at < DATE_SUB(NOW(), INTERVAL 30 DAY)"
         = Except.ok () ↔ r ≤ 30) := by
  constructor
  · intro r iv
    obtain ⟨val, lf⟩ := iv
    cases val with
    | value v =>
      cases v with
      | number s flag =>
        cases flag with
        | true => simp [validate_interval, dayEquivalentU64]
        | false =>
          cases lf with
          | none => simp [validate_interval, dayEquivalentU64]
          | some u =>
            cases u with
            | day =>
              cases hp : parseU64 s with
              | none => simp [validate_interval, dayEquivalentU64, unitFactor, hp]
              | some n =>
                have hn := parseU64_lt hp
                simp [validate_interval, dayEquivalentU64, unitFactor, hp]
                omega
            | month =>
              cases hp : parseU64 s with
              | none => simp [validate_interval, dayEquivalentU64, unitFactor, hp]
              | some n => simp [validate_interval, dayEquivalentU64, unitFactor, hp]
            | year =>
              cases hp : parseU64 s with
              | none => simp [validate_interval, dayEquivalentU64, unitFactor, hp]
              | some n => simp [validate_interval, dayEquivalentU64, unitFactor, hp]
            | other => simp [validate_interval, dayEquivalentU64, unitFactor]
      | other => simp [validate_interval, dayEquivalentU64]
    | binaryOp op l rgt => simp [validate_interval, dayEquivalentU64]
    | function name args => simp [validate_interval, dayEquivalentU64]
    | interval iv => simp [validate_interval, dayEquivalentU64]
    | inSubquery e q => simp [validate_interval, dayEquivalentU64]
    | other => simp [validate_interval, dayEquivalentU64]
  · intro r
    have hname : rustToUppercase "DATE_SUB" = "DATE_SUB" := by decide
    have hcontains : contains_date_sub r (Expr.binaryOp .lt .other dateSub30Day)
        = decide (30 ≥ r) := by
      simp [contains_date_sub, dateSub30Day, anyArgQualifies, validate_interval,
        parseU64_30, hname]
    simp [validate_sql_query, validate_statements, delete30DayStmt, hcontains]

/-- A qualifying bound-distance call: a `DATE_SUB` function call (name
matched case-insensitively) carrying a qualifying interval argument. -/
def isQualifyingCall (r : Nat) : Expr → Bool
  | .function name args =>
    if rustToUppercase name = "DATE_SUB" then
      match args with
      | .list argList => anyArgQualifies r argList
      | .other => false
    else false
  | _ => false

mutual

/-- The function-call nodes reachable from a WHERE expression under the
claimed reachability: descending through AND, `<`, `≤`, and through
IN-subquery predicates including the derived-table subqueries reachable
through those subqueries' own FROM clauses (selection and FROM of every
reached subquery). -/
def claimCalls : Expr → List Expr
  | .binaryOp op l rgt =>
    match op with
    | .lt | .ltEq | .and => claimCalls l ++ claimCalls rgt
    | .other => []
  | .function name args => [.function name args]
  | .inSubquery e q => claimCalls e ++ claimCallsQuery q
  | _ => []

/-- Claimed reachability inside a subquery: both its selection and its FROM
clause are searched. -/
def claimCallsQuery : Query → List Expr
  | .mk (SetExpr.select sel fromClause) =>
    (match sel with
     | some s => claimCalls s
     | none => []) ++ claimCallsFrom fromClause
  | .mk SetExpr.other => []

/-- Claimed reachability through a FROM clause: every derived table's
subquery is searched. -/
def claimCallsFrom : FromList → List Expr
  | .nil => []
  | .cons (.mk rel) rest =>
    (match rel with
     | .derived q => claimCallsQuery q
     | .other => []) ++ claimCallsFrom rest

end

mutual

/-- The function-call nodes the code actually reaches: as `claimCalls`,
except that the FROM clause of an IN-subquery is searched only when that
subquery has no selection. -/
def codeCalls : Expr → List Expr
  | .binaryOp op l rgt =>
    match op with
    | .lt | .ltEq | .and => codeCalls l ++ codeCalls rgt
    | .other => []
  | .function name args => [.function name args]
  | .inSubquery e q =>
    codeCalls e ++
      (match q with
       | .mk (SetExpr.select (some s) _) => codeCalls s
       | .mk (SetExpr.select none fromClause) => codeCallsFrom fromClause
       | .mk SetExpr.other => [])
  | _ => []

/-- Code reachability through a FROM clause: in a derived table both the
selection and the nested FROM clause are searched. -/
def codeCallsFrom : FromList → List Expr
  | .nil => []
  | .cons (.mk rel) rest =>
    (match rel with
     | .derived (Query.mk (SetExpr.select sel fromClause)) =>
       (match sel with
        | some s => codeCalls s
        | none => []) ++ codeCallsFrom fromClause
     | .derived (Query.mk SetExpr.other) => []
     | .other => []) ++ codeCallsFrom rest

end

mutual

theorem contains_eq_codeCalls (r : Nat) : (e : Expr) →
    contains_date_sub r e = (codeCalls e).any fun c => isQualifyingCall r c
  | .binaryOp op l rgt => by
    cases op <;>
      simp [contains_date_sub, codeCalls, contains_eq_codeCalls r l,
        contains_eq_codeCalls r rgt, List.any_append]
  | .function name args => by
    simp [contains_date_sub, codeCalls, isQualifyingCall]
  | .inSubquery e (.mk (SetExpr.select (some s) fromClause)) => by
    simp [contains_date_sub, codeCalls, contains_eq_codeCalls r e,
      contains_eq_codeCalls r s, List.any_append]
  | .inSubquery e (.mk (SetExpr.select none fromClause)) => by
    simp [contains_date_sub, codeCalls, contains_eq_codeCalls r e,
      containsFrom_eq_codeCallsFrom r fromClause, List.any_append]
  | .inSubquery e (.mk SetExpr.other) => by
    simp [contains_date_sub, codeCalls, contains_eq_codeCalls r e]
  | .interval iv => by simp [contains_date_sub, codeCalls]
  | .value v => by simp [contains_date_sub, codeCalls]
  | .other => by simp [contains_date_sub, codeCalls]

theorem containsFrom_eq_codeCallsFrom (r : Nat) : (fr : FromList) →
    contains_date_sub_in_from r fr
      = (codeCallsFrom fr).any fun c => isQualifyingCall r c
  | .nil => by simp [contains_date_sub_in_from, codeCallsFrom]
  | .cons (.mk (.derived (Query.mk (SetExpr.select (some s) fr2)))) rest => by
    cases fr2 with
    | nil =>
      simp [contains_date_sub_in_from, codeCallsFrom, contains_eq_codeCalls r s,
        containsFrom_eq_codeCallsFrom r rest, List.any_append]
    | cons hd tl =>
      simp [contains_date_sub_in_from, codeCallsFrom, contains_eq_codeCalls r s,
        containsFrom_eq_codeCallsFrom r (FromList.cons hd tl),
        containsFrom_eq_codeCallsFrom r rest, List.any_append, Bool.or_assoc]
  | .cons (.mk (.derived (Query.mk (SetExpr.select none fr2)))) rest => by
    cases fr2 with
    | nil =>
      simp [contains_date_sub_in_from, codeCallsFrom,
        containsFrom_eq_codeCallsFrom r rest, List.any_append]
    | cons hd tl =>
      simp [contains_date_sub_in_from, codeCallsFrom,
        containsFrom_eq_codeCallsFrom r (FromList.cons hd tl),
        containsFrom_eq_codeCallsFrom r rest, List.any_append]
  | .cons (.mk (.derived (Query.mk SetExpr.other))) rest => by
    simp [contains_date_sub_in_from, codeCallsFrom,
      containsFrom_eq_codeCallsFrom r rest]
  | .cons (.mk .other) rest => by
    simp [contains_date_sub_in_from, codeCallsFrom,
      containsFrom_eq_codeCallsFrom r rest]

end

/-- The C5 counterexample WHERE clause:
`x IN (SELECT .. FROM (SELECT .. WHERE created_at < DATE_SUB(NOW(), INTERVAL 30 DAY)) t WHERE <trivial>)`.
The IN-subquery has a selection without any DATE_SUB call, and a derived
table in its FROM clause whose selection carries a qualifying call. -/
def c5where : Expr :=
  .inSubquery .other
    (.mk (SetExpr.select (some .other)
      (.cons (.mk (.derived (.mk (SetExpr.select
        (some (.binaryOp .lt .other dateSub30Day)) .nil)))) .nil)))

/-- C5 counterexample: under the claimed reachability the qualifying call
in `c5where` is reachable (so the claim says the validator passes), yet the
validator rejects the statement: the code searches the FROM clause of an
IN-subquery only when that subquery has no WHERE selection. -/
theorem contains_date_sub_skips_from_counterexample :
    ((claimCalls c5where).any fun c => isQualifyingCall 0 c) = true ∧
    validate_statements 0 [Statement.delete (some c5where)]
      = Except.error "DELETE statement must use DATE_SUB function" := by
  constructor
  · decide
  · rfl

/-- C5 amended: a single-statement WHERE-qualified DELETE passes the
validator iff a qualifying bound-distance call exists among the nodes
reachable from the WHERE clause by descending through AND, `<`, `≤` and
IN-subquery predicates — where the FROM clause of an IN-subquery is
searched only when that subquery has no WHERE selection, while inside
derived tables both the selection and the nested FROM clause are
searched. -/
theorem validate_passes_iff_reachable_call (r : Nat) (sel : Expr) :
    validate_statements r [Statement.delete (some sel)] = Except.ok () ↔
      ((codeCalls sel).any fun c => isQualifyingCall r c) = true := by
  simp only [validate_statements]
  rw [contains_eq_codeCalls r sel]
  cases h : (codeCalls sel).any fun c => isQualifyingCall r c <;> simp

/-! ## Template renderer (src/cleaner/template.rs) -/

/-- One piece of a parsed template: literal text, or a placeholder
referencing a context name. -/
inductive Chunk where
  | lit (s : String)
  | var (name : String)
deriving DecidableEq

/-- A template, as the chunk sequence the template engine parses it
into. -/
abbrev Template := List Chunk

/-- Context lookup. The context is an association list whose front entries
are the latest inserts, so an insert at the front shadows earlier entries
exactly as a map insert overwrites. -/
def ctxLookup (ctx : List (String × String)) (name : String) : Option String :=
  match ctx with
  | [] => none
  | (k, v) :: rest => if k = name then some v else ctxLookup rest name

/-- Modelled from the spec: the minijinja rendering engine is an external
crate. Per the renderer contract, each placeholder is substituted with the
context value of its name, and referencing a name absent from the context
is an error. -/
def renderChunks (ctx : List (String × String)) : Template → Except String String
  | [] => Except.ok ""
  | .lit s :: rest => (renderChunks ctx rest).map (fun tail => s ++ tail)
  | .var n :: rest =>
    match ctxLookup ctx n with
    | some v => (renderChunks ctx rest).map (fun tail => v ++ tail)
    | none => Except.error ("undefined value: " ++ n)

/-- The merged context `TemplateEngine::render` builds: the task parameters
with `data_interval_start` and `data_interval_end` inserted on top. -/
def mergedContext (params : List (String × String))
    (data_interval_start data_interval_end : String) : List (String × String) :=
  ("data_interval_end", data_interval_end) ::
    ("data_interval_start", data_interval_start) :: params

/-- `TemplateEngine::render`: substitute the merged context into the
template. -/
def TemplateEngine.render (template : Template) (params : List (String × String))
    (data_interval_start data_interval_end : String) : Except String String :=
  renderChunks (mergedContext params data_interval_start data_interval_end) template

/-- The names a template references. -/
def referencedVars : Template → List String
  | [] => []
  | .lit _ :: rest => referencedVars rest
  | .var n :: rest => n :: referencedVars rest

/-- The first referenced name absent from the context, if any. -/
def firstMissingVar (ctx : List (String × String)) : Template → Option String
  | [] => none
  | .lit _ :: rest => firstMissingVar ctx rest
  | .var n :: rest =>
    match ctxLookup ctx n with
    | some _ => firstMissingVar ctx rest
    | none => some n

/-- The substitution of a fully-resolvable template. -/
def substAll (ctx : List (String × String)) : Template → String
  | [] => ""
  | .lit s :: rest => s ++ substAll ctx rest
  | .var n :: rest => (ctxLookup ctx n).getD "" ++ substAll ctx rest

/-- C9: rendering substitutes every placeholder from the merged context
(parameters plus the injected interval values) and succeeds exactly when
every referenced name is present; a template referencing a name absent from
the merged context renders to an error naming the first such
placeholder. -/
theorem render_substitutes_from_merged_context :
    ∀ (template : Template) (params : List (String × String)) (dis die : String),
      TemplateEngine.render template params dis die =
        (match firstMissingVar (mergedContext params dis die) template with
         | none => Except.ok (substAll (mergedContext params dis die) template)
         | some n => Except.error ("undefined value: " ++ n)) ∧
      (firstMissingVar (mergedContext params dis die) template = none ↔
        ∀ n ∈ referencedVars template,
          (ctxLookup (mergedContext params dis die) n).isSome = true) := by
  intro template params dis die
  constructor
  · unfold TemplateEngine.render
    generalize mergedContext params dis die = ctx
    induction template with
    | nil => simp [renderChunks, firstMissingVar, substAll]
    | cons c rest ih =>
      cases c with
      | lit s =>
        simp only [renderChunks, firstMissingVar, substAll, ih]
        cases firstMissingVar ctx rest <;> simp [Except.map]
      | var n =>
        cases hn : ctxLookup ctx n with
        | none => simp [renderChunks, firstMissingVar, hn]
        | some v =>
          simp only [renderChunks, firstMissingVar, substAll, hn, ih]
          cases firstMissingVar ctx rest <;> simp [Except.map]
  · generalize mergedContext params dis die = ctx
    induction template with
    | nil => simp [firstMissingVar, referencedVars]
    | cons c rest ih =>
      cases c with
      | lit s => simpa [firstMissingVar, referencedVars] using ih
      | var n =>
        cases hn : ctxLookup ctx n with
        | none => simp [firstMissingVar, referencedVars, hn]
        | some v => simpa [firstMissingVar, referencedVars, hn] using ih

/-! ## Task executor (src/cleaner/task.rs)

`execute_cleanup_task` is embedded as a deterministic function of the
firing's inputs and the database stub: the connection attempt as a boolean,
`execute_query` outcomes as a result list consumed in order, and the
side-effect trace (executed statements, notifications, sleeps) made
explicit. The timeout race of `process_cleanup_task` is a concurrency
feature outside this embedding. Elapsed times are modelled as rationals. -/

/-- `config.slack_config`, restricted to the flag the executor branches
on. -/
structure SlackConfig where
  enabled : Bool
deriving DecidableEq

/-- `config.safe_mode`. -/
structure SafeMode where
  enabled : Bool
  retention_days : Nat
deriving DecidableEq

/-- `Config`, restricted to the fields the executor reads. -/
structure Config where
  slack_config : SlackConfig
  safe_mode : SafeMode
deriving DecidableEq

/-- `CleanupTask`. -/
structure CleanupTask where
  name : String
  enabled : Bool
  template_query : Template
  parameters : List (String × String)
  batch_size : Nat
  retry_attempts : Nat
  retry_delay_seconds : Nat
  query_interval_seconds : Nat
  task_timeout_seconds : Rat
deriving DecidableEq

/-- One `db.execute_query` outcome of the database stub. -/
inductive QueryResult where
  | ok (affected_rows : Nat) (elapsed_in_secs : Rat)
  | err
deriving DecidableEq

/-- `ProgressTracker`: the shared progress cell the loop mirrors totals
into after every successful batch. -/
structure ProgressTracker where
  total_rows : Nat
  elapsed_time : Rat
deriving DecidableEq

/-- A sleep performed by the loop. -/
inductive SleepKind where
  | queryInterval (seconds : Nat)
  | retryDelay (seconds : Nat)
deriving DecidableEq

/-- The observable side effects of one firing: statements executed (in
order), success and failure notifications sent, sleeps performed. -/
structure ExecTrace where
  executed : List String
  cleanupReports : Nat
  errorReports : Nat
  sleeps : List SleepKind
deriving DecidableEq

/-- The trace before anything has happened. -/
def ExecTrace.empty : ExecTrace := ⟨[], 0, 0, []⟩

/-- The mutable state of the execute loop, together with its trace. -/
structure LoopState where
  attempt : Nat
  success : Bool
  total_rows : Nat
  total_time_elapsed : Rat
  tracker : ProgressTracker
  trace : ExecTrace
deriving DecidableEq

/-- The loop state on entry. -/
def initLoopState : LoopState := ⟨0, false, 0, 0, ⟨0, 0⟩, ExecTrace.empty⟩

/-- The batch/retry loop of `execute_cleanup_task` (the labelled
`while`/`loop` nest): one database result is consumed per iteration;
`none` when the stub's result list runs out before the loop decides. -/
def execLoop (task : CleanupTask) (slackEnabled : Bool) (sql : String)
    (results : List QueryResult) (st : LoopState) : Option LoopState :=
  if st.attempt < task.retry_attempts then
    match results with
    | [] => none
    | res :: rest =>
      let st1 := { st with
        trace := { st.trace with executed := st.trace.executed ++ [sql] } }
      match res with
      | .ok affected_rows elapsed_in_secs =>
        if affected_rows = 0 then
          let st2 := { st1 with success := true }
          let st3 := if slackEnabled then
              { st2 with trace :=
                { st2.trace with cleanupReports := st2.trace.cleanupReports + 1 } }
            else st2
          some st3
        else
          let total_time := st1.total_time_elapsed + elapsed_in_secs
          let total := st1.total_rows + affected_rows
          let st2 := { st1 with
            total_time_elapsed := total_time
            total_rows := total
            tracker := ⟨total, total_time⟩
            trace := { st1.trace with sleeps := st1.trace.sleeps ++
              [SleepKind.queryInterval task.query_interval_seconds] } }
          execLoop task slackEnabled sql rest st2
      | .err =>
        let a := st1.attempt + 1
        let st2 := { st1 with attempt := a }
        let st3 := if a < task.retry_attempts then
            { st2 with trace := { st2.trace with sleeps := st2.trace.sleeps ++
              [SleepKind.retryDelay task.retry_delay_seconds] } }
          else st2
        let st4 := if a = task.retry_attempts then
            (if slackEnabled then
              { st3 with trace :=
                { st3.trace with errorReports := st3.trace.errorReports + 1 } }
            else st3)
          else st3
        execLoop task slackEnabled sql rest st4
  else some st

/-- The per-firing outcome of `execute_cleanup_task`. -/
inductive ExecResult where
  | ok
  | connectionError
  | renderError (msg : String)
  | validationError (msg : String)
  | allAttemptsFailed
deriving DecidableEq

/-- `execute_cleanup_task`: database initialisation, the disabled-task
skip, template rendering, safety validation (gated by
`safe_mode.enabled`, with one failure notification when Slack is enabled),
then the batch/retry loop. -/
def execute_cleanup_task (config : Config) (task : CleanupTask)
    (parse : String → Option (List Statement))
    (data_interval_start data_interval_end : String)
    (connectOk : Bool) (results : List QueryResult) :
    Option (ExecResult × LoopState) :=
  if connectOk = false then some (.connectionError, initLoopState)
  else if task.enabled = false then some (.ok, initLoopState)
  else
    let template_parameters :=
      ("batch_size", toString task.batch_size) :: task.parameters
    match TemplateEngine.render task.template_query template_parameters
        data_interval_start data_interval_end with
    | .error e => some (.renderError e, initLoopState)
    | .ok sql =>
      match (if config.safe_mode.enabled then
            validate_sql_query parse config.safe_mode.retention_days sql
          else Except.ok ()) with
      | .error e =>
        let st := if config.slack_config.enabled then
            { initLoopState with trace :=
              { initLoopState.trace with errorReports := 1 } }
          else initLoopState
        some (.validationError e, st)
      | .ok _ =>
        match execLoop task config.slack_config.enabled sql results initLoopState with
        | none => none
        | some st =>
          some (if st.success then ExecResult.ok else ExecResult.allAttemptsFailed, st)

/-- A configuration used by the concrete executor instances: Slack enabled,
safe mode disabled. -/
def cfgStub : Config := ⟨⟨true⟩, ⟨false, 30⟩⟩

/-- A disabled task with otherwise ordinary settings. -/
def taskDisabled : CleanupTask :=
  { name := "t", enabled := false, template_query := [], parameters := []
    batch_size := 10, retry_attempts := 3, retry_delay_seconds := 1
    query_interval_seconds := 0, task_timeout_seconds := 60 }

/-- C3 counterexample: a firing of a disabled task does attempt the
database connection — it is initialised before the disabled check — so
with a failing connection the executor returns a connection error, not the
immediate success the claim asserts for every disabled firing. -/
theorem disabled_task_connects_counterexample :
    execute_cleanup_task cfgStub taskDisabled (fun _ => none) "" "" false []
      = some (ExecResult.connectionError, initLoopState) ∧
    ExecResult.connectionError ≠ ExecResult.ok := by
  exact ⟨rfl, by decide⟩

/-- C3 amended: once the database connection is initialised, a firing of a
disabled task returns immediate success with an empty side-effect trace: no
statement executed, no rendering, no notification, no sleep. The connection
itself is still attempted before the disabled check, and its failure makes
even a disabled firing fail. -/
theorem disabled_task_skips_after_connect (config : Config) (task : CleanupTask)
    (parse : String → Option (List Statement))
    (dis die : String) (results : List QueryResult)
    (h : task.enabled = false) :
    execute_cleanup_task config task parse dis die true results
      = some (ExecResult.ok, initLoopState) := by
  simp [execute_cleanup_task, h]

/-- Witness for the amended C3 statement at a concrete disabled task. -/
theorem disabled_task_skips_after_connect_witness :
    execute_cleanup_task cfgStub taskDisabled (fun _ => none) "" "" true []
      = some (ExecResult.ok, initLoopState) :=
  disabled_task_skips_after_connect cfgStub taskDisabled (fun _ => none) "" "" [] rfl

theorem execLoop_all_errors (task : CleanupTask) (sql : String) :
    ∀ (k : Nat) (st : LoopState), 1 ≤ k →
    st.attempt + k = task.retry_attempts →
    execLoop task true sql (List.replicate k QueryResult.err) st
      = some { st with
          attempt := task.retry_attempts
          trace := { st.trace with
            executed := st.trace.executed ++ List.replicate k sql
            errorReports := st.trace.errorReports + 1
            sleeps := st.trace.sleeps ++ List.replicate (k - 1)
              (SleepKind.retryDelay task.retry_delay_seconds) } } := by
  intro k
  induction k with
  | zero => omega
  | succ m ih =>
    intro st _ hsum
    have hlt : st.attempt < task.retry_attempts := by omega
    cases Nat.eq_zero_or_pos m with
    | inl hm0 =>
      subst hm0
      have hone : st.attempt + 1 = task.retry_attempts := by omega
      simp only [execLoop, hlt, if_true, List.replicate_succ, List.replicate_zero]
      simp [hone, show ¬ (task.retry_attempts < task.retry_attempts) from by omega,
        execLoop, show ¬ (task.retry_attempts < task.retry_attempts) from by omega]
    | inr hmpos =>
      have hnext : st.attempt + 1 < task.retry_attempts := by omega
      simp only [execLoop, hlt, if_true, List.replicate_succ]
      rw [show (if st.attempt + 1 = task.retry_attempts then _ else _) = _ from
        if_neg (by omega)]
      simp only [if_pos hnext]
      rw [ih _ hmpos (by simp; omega)]
      have hrep : SleepKind.retryDelay task.retry_delay_seconds ::
          List.replicate (m - 1) (SleepKind.retryDelay task.retry_delay_seconds)
          = List.replicate m (SleepKind.retryDelay task.retry_delay_seconds) := by
        cases m with
        | zero => omega
        | succ m2 => simp [List.replicate_succ, show m2 + 1 - 1 = m2 from by omega]
      simp [List.append_assoc, List.replicate_succ,
        show m + 1 - 1 = m from by omega, hrep]

/-- C6: with an always-erroring database, the firing performs exactly
`retry_attempts` executions of the same rendered statement, sleeping
`retry_delay_seconds` between consecutive attempts (`retry_attempts - 1`
sleeps), then returns an execution failure having sent exactly one failure
notification. -/
theorem executor_retry_exhaustion (config : Config) (task : CleanupTask)
    (parse : String → Option (List Statement)) (dis die sql : String)
    (hEnabled : task.enabled = true)
    (hSlack : config.slack_config.enabled = true)
    (hSafe : config.safe_mode.enabled = false)
    (hRetry : 1 ≤ task.retry_attempts)
    (hRender : TemplateEngine.render task.template_query
        (("batch_size", toString task.batch_size) :: task.parameters) dis die
      = Except.ok sql) :
    execute_cleanup_task config task parse dis die true
        (List.replicate task.retry_attempts QueryResult.err)
      = some (ExecResult.allAttemptsFailed,
          { attempt := task.retry_attempts, success := false, total_rows := 0,
            total_time_elapsed := 0, tracker := ⟨0, 0⟩,
            trace := { executed := List.replicate task.retry_attempts sql,
                       cleanupReports := 0, errorReports := 1,
                       sleeps := List.replicate (task.retry_attempts - 1)
                         (SleepKind.retryDelay task.retry_delay_seconds) } }) := by
  have h0 : initLoopState.attempt + task.retry_attempts = task.retry_attempts := by
    simp [initLoopState]
  have hloop := execLoop_all_errors task sql task.retry_attempts initLoopState hRetry h0
  simp only [initLoopState, ExecTrace.empty, List.nil_append] at hloop
  simp [execute_cleanup_task, hEnabled, hSafe, hSlack, hRender, hloop,
    initLoopState, ExecTrace.empty]

/-- The concrete enabled task used by the executor witnesses. -/
def taskW : CleanupTask :=
  { name := "w", enabled := true, template_query := [Chunk.lit "DELETE"]
    parameters := [], batch_size := 10, retry_attempts := 2
    retry_delay_seconds := 5, query_interval_seconds := 1
    task_timeout_seconds := 60 }

/-- Witness for C6 at a concrete task with two retry attempts. -/
theorem executor_retry_exhaustion_witness :
    execute_cleanup_task cfgStub taskW (fun _ => none) "" "" true
        (List.replicate taskW.retry_attempts QueryResult.err)
      = some (ExecResult.allAttemptsFailed,
          { attempt := taskW.retry_attempts, success := false, total_rows := 0,
            total_time_elapsed := 0, tracker := ⟨0, 0⟩,
            trace := { executed := List.replicate taskW.retry_attempts "DELETE",
                       cleanupReports := 0, errorReports := 1,
                       sleeps := List.replicate (taskW.retry_attempts - 1)
                         (SleepKind.retryDelay taskW.retry_delay_seconds) } }) :=
  executor_retry_exhaustion cfgStub taskW (fun _ => none) "" "" "DELETE"
    rfl rfl rfl (by decide) rfl

/-- C7: with the database reporting `batch_size`, then `batch_size`, then 0
affected rows, the firing succeeds with cumulative total rows
`2 × batch_size`, exactly one success notification, the attempt counter
never incremented, and one pacing sleep after each of the two non-empty
batches. -/
theorem executor_batches_accumulate (config : Config) (task : CleanupTask)
    (parse : String → Option (List Statement)) (dis die sql : String)
    (e1 e2 e3 : Rat)
    (hEnabled : task.enabled = true)
    (hSlack : config.slack_config.enabled = true)
    (hSafe : config.safe_mode.enabled = false)
    (hRetry : 1 ≤ task.retry_attempts)
    (hBatch : 1 ≤ task.batch_size)
    (hRender : TemplateEngine.render task.template_query
        (("batch_size", toString task.batch_size) :: task.parameters) dis die
      = Except.ok sql) :
    execute_cleanup_task config task parse dis die true
        [QueryResult.ok task.batch_size e1, QueryResult.ok task.batch_size e2,
         QueryResult.ok 0 e3]
      = some (ExecResult.ok,
          { attempt := 0, success := true, total_rows := 2 * task.batch_size,
            total_time_elapsed := e1 + e2,
            tracker := ⟨2 * task.batch_size, e1 + e2⟩,
            trace := { executed := [sql, sql, sql], cleanupReports := 1,
                       errorReports := 0,
                       sleeps := [SleepKind.queryInterval task.query_interval_seconds,
                                  SleepKind.queryInterval task.query_interval_seconds] } }) := by
  have hb : ¬ task.batch_size = 0 := by omega
  have hlt : (0 : Nat) < task.retry_attempts := hRetry
  simp [execute_cleanup_task, hEnabled, hSafe, hSlack, hRender, execLoop,
    initLoopState, ExecTrace.empty, hb, hlt]
  all_goals omega

/-- Witness for C7 at a concrete task with batch size 10. -/
theorem executor_batches_accumulate_witness :
    execute_cleanup_task cfgStub taskW (fun _ => none) "" "" true
        [QueryResult.ok taskW.batch_size 2, QueryResult.ok taskW.batch_size 3,
         QueryResult.ok 0 1]
      = some (ExecResult.ok,
          { attempt := 0, success := true, total_rows := 2 * taskW.batch_size,
            total_time_elapsed := 2 + 3,
            tracker := ⟨2 * taskW.batch_size, 2 + 3⟩,
            trace := { executed := ["DELETE", "DELETE", "DELETE"],
                       cleanupReports := 1, errorReports := 0,
                       sleeps := [SleepKind.queryInterval taskW.query_interval_seconds,
                                  SleepKind.queryInterval taskW.query_interval_seconds] } }) :=
  executor_batches_accumulate cfgStub taskW (fun _ => none) "" "" "DELETE"
    2 3 1 rfl rfl rfl (by decide) (by decide) rfl

/-- Whether a stub result is an execution error. -/
def isErrResult : QueryResult → Bool
  | .err => true
  | .ok _ _ => false

theorem execLoop_done (task : CleanupTask) (slackEnabled : Bool) (sql : String)
    (results : List QueryResult) (st : LoopState)
    (h : ¬ st.attempt < task.retry_attempts) :
    execLoop task slackEnabled sql results st = some st := by
  cases results <;> simp [execLoop, h]

theorem execLoop_errors_accumulate (task : CleanupTask) (sql : String) :
    ∀ (results : List QueryResult) (st : LoopState),
    st.success = false →
    st.attempt < task.retry_attempts →
    task.retry_attempts ≤ st.attempt + results.countP isErrResult →
    (∀ res ∈ results, res = QueryResult.err ∨
       ∃ n e, res = QueryResult.ok n e ∧ 0 < n) →
    ∃ st2, execLoop task true sql results st = some st2 ∧
      st2.attempt = task.retry_attempts ∧ st2.success = false ∧
      st2.trace.errorReports = st.trace.errorReports + 1 ∧
      st2.trace.cleanupReports = st.trace.cleanupReports := by
  intro results
  induction results with
  | nil =>
    intro st _ hlt hcount _
    simp [List.countP_nil] at hcount
    omega
  | cons res rest ih =>
    intro st hs hlt hcount hall
    rcases hall res (List.mem_cons_self _ _) with hres | ⟨n, e, hres, hn⟩
    · subst hres
      by_cases hEq : st.attempt + 1 = task.retry_attempts
      · refine ⟨{ st with
            attempt := st.attempt + 1,
            trace := { st.trace with
              executed := st.trace.executed ++ [sql],
              errorReports := st.trace.errorReports + 1 } },
          ?_, by simpa using hEq, by simpa using hs, by simp, by simp⟩
        simp [execLoop, hlt, hEq,
          show ¬ (task.retry_attempts < task.retry_attempts) from by omega]
        exact execLoop_done task true sql rest _ (by simp)
      · have hnext : st.attempt + 1 < task.retry_attempts := by omega
        have hcount2 : task.retry_attempts ≤
            (st.attempt + 1) + rest.countP isErrResult := by
          simp [List.countP_cons, isErrResult] at hcount ⊢
          omega
        obtain ⟨st2, heq, h1, h2, h3, h4⟩ := ih
          { st with attempt := st.attempt + 1
                    trace := { st.trace with
                      executed := st.trace.executed ++ [sql]
                      sleeps := st.trace.sleeps ++
                        [SleepKind.retryDelay task.retry_delay_seconds] } }
          hs hnext hcount2 (fun r hr => hall r (List.mem_cons_of_mem _ hr))
        refine ⟨st2, ?_, h1, h2, by simpa using h3, by simpa using h4⟩
        rw [← heq]
        simp [execLoop, hlt, hEq, hnext]
    · subst hres
      have hn0 : ¬ n = 0 := by omega
      have hcount2 : task.retry_attempts ≤ st.attempt + rest.countP isErrResult := by
        simp [List.countP_cons, isErrResult] at hcount ⊢
        omega
      obtain ⟨st2, heq, h1, h2, h3, h4⟩ := ih
        { st with total_time_elapsed := st.total_time_elapsed + e
                  total_rows := st.total_rows + n
                  tracker := ⟨st.total_rows + n, st.total_time_elapsed + e⟩
                  trace := { st.trace with
                    executed := st.trace.executed ++ [sql]
                    sleeps := st.trace.sleeps ++
                      [SleepKind.queryInterval task.query_interval_seconds] } }
        hs hlt hcount2 (fun r hr => hall r (List.mem_cons_of_mem _ hr))
      refine ⟨st2, ?_, h1, h2, by simpa using h3, by simpa using h4⟩
      rw [← heq]
      simp [execLoop, hlt, hn0]

/-- C10 (implicit): within one firing the attempt counter is never reset by
a successful batch — once the total number of failed executions reaches
`retry_attempts`, the firing fails with exactly one failure notification
and no success notification, even when successful batches occur between the
failures. -/
theorem executor_attempts_accumulate (config : Config) (task : CleanupTask)
    (parse : String → Option (List Statement)) (dis die sql : String)
    (results : List QueryResult)
    (hEnabled : task.enabled = true)
    (hSlack : config.slack_config.enabled = true)
    (hSafe : config.safe_mode.enabled = false)
    (hRetry : 1 ≤ task.retry_attempts)
    (hRender : TemplateEngine.render task.template_query
        (("batch_size", toString task.batch_size) :: task.parameters) dis die
      = Except.ok sql)
    (hall : ∀ res ∈ results, res = QueryResult.err ∨
       ∃ n e, res = QueryResult.ok n e ∧ 0 < n)
    (hcount : task.retry_attempts ≤ results.countP isErrResult) :
    ∃ st, execute_cleanup_task config task parse dis die true results
        = some (ExecResult.allAttemptsFailed, st) ∧
      st.attempt = task.retry_attempts ∧
      st.trace.errorReports = 1 ∧ st.trace.cleanupReports = 0 := by
  obtain ⟨st2, heq, h1, h2, h3, h4⟩ :=
    execLoop_errors_accumulate task sql results initLoopState rfl hRetry
      (by simpa [initLoopState] using hcount) hall
  refine ⟨st2, ?_, h1, by simpa [initLoopState, ExecTrace.empty] using h3,
    by simpa [initLoopState, ExecTrace.empty] using h4⟩
  simp [execute_cleanup_task, hEnabled, hSafe, hSlack, hRender, heq, h2]

/-- Witness for C10 at a concrete run interleaving successful batches with
two failures. -/
theorem executor_attempts_accumulate_witness :
    ∃ st, execute_cleanup_task cfgStub taskW (fun _ => none) "" "" true
        [QueryResult.ok 5 0, QueryResult.err, QueryResult.ok 3 0, QueryResult.err]
        = some (ExecResult.allAttemptsFailed, st) ∧
      st.attempt = taskW.retry_attempts ∧
      st.trace.errorReports = 1 ∧ st.trace.cleanupReports = 0 :=
  executor_attempts_accumulate cfgStub taskW (fun _ => none) "" "" "DELETE"
    [QueryResult.ok 5 0, QueryResult.err, QueryResult.ok 3 0, QueryResult.err]
    rfl rfl rfl (by decide) rfl
    (by
      intro res h
      simp only [List.mem_cons, List.not_mem_nil, or_false] at h
      rcases h with h | h | h | h
      · subst h; exact Or.inr ⟨5, 0, rfl, by omega⟩
      · subst h; exact Or.inl rfl
      · subst h; exact Or.inr ⟨3, 0, rfl, by omega⟩
      · subst h; exact Or.inl rfl)
    (by decide)

end Kiyoshi
